import Mathlib

/-!
Verification development for the ro-crate-py entity graph (rocrate/rocrate.py,
rocrate/model/entity.py, rocrate/model/dataset.py and friends), as a shallow
embedding in Lean.

JSON-LD property values are embedded as `JVal` (strings, integers, booleans,
None, reference dicts, lists).  Python's insertion-ordered dicts are embedded
as association lists with replace-in-place update.  The identifier resolution
of `ROCrate.resolve_id` calls `urllib.parse.urljoin`; that stdlib function is
embedded faithfully (CPython 3.11 `urllib/parse.py`), including the
`uses_relative` scheme gate that makes joins against the crate's
`arcp://uuid,.../` base URI return relative references unchanged.
-/

namespace RC

/-! ## Character / string helpers (structural, kernel-reducible) -/

/-- Characters of a string. -/
def chars (s : String) : List Char := s.data

/-- String from characters. -/
def strOf (cs : List Char) : String := String.mk cs

/-- Split a character list at every occurrence of `c` (Python `str.split(c)`:
always at least one, possibly empty, segment). -/
def splitChar (c : Char) : List Char → List (List Char)
  | [] => [[]]
  | x :: xs =>
    match splitChar c xs with
    | [] => if x = c then [[], []] else [[x]]
    | seg :: rest => if x = c then [] :: seg :: rest else (x :: seg) :: rest

/-- Join character-list segments with separator `c` (Python `c.join(...)`). -/
def joinChar (c : Char) : List (List Char) → List Char
  | [] => []
  | [x] => x
  | x :: xs => x ++ c :: joinChar c xs

/-- Split once at the first occurrence of `c` (Python `str.split(c, 1)`),
`none` when `c` does not occur. -/
def splitOnceChar (c : Char) : List Char → Option (List Char × List Char)
  | [] => none
  | x :: xs =>
    if x = c then some ([], xs)
    else (splitOnceChar c xs).map (fun p => (x :: p.1, p.2))

/-- Python `str.startswith` on our own representation. -/
def strStartsWith (s p : String) : Bool := p.data.isPrefixOf s.data

/-- Python `str.rstrip("/")`. -/
def rstripSlash (s : String) : String :=
  strOf ((chars s).reverse.dropWhile (fun c => c = '/')).reverse

/-! ## CPython 3.11 `urllib.parse`: `urlsplit` / `urlparse` / `urljoin`

Transcribed from the stdlib implementation that `ROCrate.resolve_id` calls.
The IPv6-bracket validation of `urlsplit` (a `ValueError` on malformed
bracketed hosts) is not modelled; no id produced by this library reaches it. -/

/-- Python `uses_relative` (urllib/parse.py): schemes for which `urljoin`
performs relative resolution.  `arcp` is not in it. -/
def usesRelative : List String :=
  ["", "ftp", "http", "gopher", "nntp", "imap", "wais", "file", "https",
   "shttp", "mms", "prospero", "rtsp", "rtspu", "sftp", "svn", "svn+ssh",
   "ws", "wss"]

/-- Python `uses_netloc` (urllib/parse.py). -/
def usesNetloc : List String :=
  ["", "ftp", "http", "gopher", "nntp", "telnet", "imap", "wais", "file",
   "mms", "https", "shttp", "snews", "prospero", "rtsp", "rtspu", "rsync",
   "svn", "svn+ssh", "sftp", "nfs", "git", "git+ssh", "ws", "wss",
   "itms-services"]

/-- Python `uses_params` (urllib/parse.py). -/
def usesParams : List String :=
  ["", "ftp", "hdl", "prospero", "http", "imap", "https", "shttp", "rtsp",
   "rtspu", "sip", "sips", "mms", "sftp", "tel"]

/-- Characters allowed in a URL scheme (`scheme_chars`). -/
def isSchemeChar (c : Char) : Bool :=
  c.isAlpha ∨ c.isDigit ∨ c = '+' ∨ c = '-' ∨ c = '.'

/-- WHATWG C0-control-or-space class used by `urlsplit` to lstrip the URL. -/
def wsC0 (c : Char) : Bool := c.val ≤ 32

/-- Remove `_UNSAFE_URL_BYTES_TO_REMOVE` (tab, CR, LF). -/
def removeUnsafe (cs : List Char) : List Char :=
  cs.filter (fun c => ¬ (c = '\t' ∨ c = '\r' ∨ c = '\n'))

/-- Result of `urlsplit`. -/
structure PySplit where
  scheme : String
  netloc : String
  path : String
  query : String
  fragment : String
deriving DecidableEq, Repr

/-- CPython `urlsplit(url, scheme)` with `allow_fragments=True` (the only
form `urljoin` and this library use). -/
def pyUrlsplit (url0 dscheme : String) : PySplit :=
  let url1 := (chars url0).dropWhile wsC0
  let sch1 := (((chars dscheme).dropWhile wsC0).reverse.dropWhile wsC0).reverse
  let url := removeUnsafe url1
  let schDefault := removeUnsafe sch1
  let schemeUrl : List Char × List Char :=
    match splitOnceChar ':' url with
    | some (pre, rest) =>
      if (match pre with | c :: _ => c.isAlpha | [] => false)
          && pre.all isSchemeChar
      then (pre.map Char.toLower, rest)
      else (schDefault, url)
    | none => (schDefault, url)
  let scheme := schemeUrl.1
  let url := schemeUrl.2
  let netlocUrl : List Char × List Char :=
    match url with
    | '/' :: '/' :: rest =>
      (rest.takeWhile (fun c => ¬ (c = '/' ∨ c = '?' ∨ c = '#')),
       rest.dropWhile (fun c => ¬ (c = '/' ∨ c = '?' ∨ c = '#')))
    | _ => ([], url)
  let netloc := netlocUrl.1
  let url := netlocUrl.2
  let urlFrag : List Char × List Char :=
    match splitOnceChar '#' url with
    | some (a, b) => (a, b)
    | none => (url, [])
  let url := urlFrag.1
  let fragment := urlFrag.2
  let urlQuery : List Char × List Char :=
    match splitOnceChar '?' url with
    | some (a, b) => (a, b)
    | none => (url, [])
  ⟨strOf scheme, strOf netloc, strOf urlQuery.1, strOf urlQuery.2,
   strOf fragment⟩

/-- Position-free transcription of CPython `_splitparams`:
split `;params` off the last path segment. -/
def pySplitparams (url : List Char) : List Char × List Char :=
  if url.contains '/' then
    match splitOnceChar '/' url.reverse with
    | some (bRev, aRev) =>
      let a := aRev.reverse
      let b := bRev.reverse
      match splitOnceChar ';' b with
      | none => (url, [])
      | some (b1, b2) => (a ++ '/' :: b1, b2)
    | none => (url, [])
  else
    match splitOnceChar ';' url with
    | none => (url.dropLast, url)
    | some (u1, u2) => (u1, u2)

/-- Result of `urlparse` (adds `params`). -/
structure PyParse6 where
  scheme : String
  netloc : String
  path : String
  params : String
  query : String
  fragment : String
deriving DecidableEq, Repr

/-- CPython `urlparse(url, scheme)`. -/
def pyUrlparse (url0 dscheme : String) : PyParse6 :=
  let s := pyUrlsplit url0 dscheme
  if usesParams.contains s.scheme ∧ (chars s.path).contains ';' then
    let p := pySplitparams (chars s.path)
    ⟨s.scheme, s.netloc, strOf p.1, strOf p.2, s.query, s.fragment⟩
  else ⟨s.scheme, s.netloc, s.path, "", s.query, s.fragment⟩

/-- CPython `urlunsplit`. -/
def pyUrlunsplit (scheme netloc path query fragment : String) : String :=
  let url := path
  let url :=
    if netloc ≠ "" ∨ (scheme ≠ "" ∧ usesNetloc.contains scheme
        ∧ ¬ strStartsWith url "//")
    then
      let u1 := if url ≠ "" ∧ ¬ strStartsWith url "/" then "/" ++ url else url
      "//" ++ netloc ++ u1
    else url
  let url := if scheme ≠ "" then scheme ++ ":" ++ url else url
  let url := if query ≠ "" then url ++ "?" ++ query else url
  if fragment ≠ "" then url ++ "#" ++ fragment else url

/-- CPython `urlunparse`. -/
def pyUrlunparse (p : PyParse6) : String :=
  let u := if p.params ≠ "" then p.path ++ ";" ++ p.params else p.path
  pyUrlunsplit p.scheme p.netloc u p.query p.fragment

/-- CPython `segments[1:-1] = filter(None, segments[1:-1])`. -/
def pyFilterMiddle : List (List Char) → List (List Char)
  | [] => []
  | [x] => [x]
  | x :: rest =>
    match rest.reverse with
    | [] => [x]
    | lastSeg :: midRev =>
      x :: (midRev.reverse.filter (fun s => s ≠ [])) ++ [lastSeg]

/-- CPython `urljoin(base, url)` (`allow_fragments=True`). -/
def pyUrljoin (base url : String) : String :=
  if base = "" then url
  else if url = "" then base
  else
    let b := pyUrlparse base ""
    let u := pyUrlparse url b.scheme
    if u.scheme ≠ b.scheme ∨ ¬ usesRelative.contains u.scheme then url
    else if usesNetloc.contains u.scheme ∧ u.netloc ≠ "" then
      pyUrlunparse ⟨u.scheme, u.netloc, u.path, u.params, u.query, u.fragment⟩
    else
      let netloc := if usesNetloc.contains u.scheme then b.netloc else u.netloc
      if u.path = "" ∧ u.params = "" then
        let q := if u.query = "" then b.query else u.query
        pyUrlunparse ⟨u.scheme, netloc, b.path, b.params, q, u.fragment⟩
      else
        let baseParts0 := splitChar '/' (chars b.path)
        let baseParts :=
          if baseParts0.getLast? ≠ some [] then baseParts0.dropLast
          else baseParts0
        let pathSegs := splitChar '/' (chars u.path)
        let segments :=
          if strStartsWith u.path "/" then pathSegs
          else pyFilterMiddle (baseParts ++ pathSegs)
        let resolved := segments.foldl
          (fun acc seg =>
            if seg = ['.', '.'] then acc.dropLast
            else if seg = ['.'] then acc
            else acc ++ [seg]) []
        let resolved :=
          if segments.getLast? = some ['.'] ∨ segments.getLast? = some ['.', '.']
          then resolved ++ [[]] else resolved
        let rp := joinChar '/' resolved
        let rpath := if rp = [] then "/" else strOf rp
        pyUrlunparse ⟨u.scheme, netloc, rpath, u.params, u.query, u.fragment⟩

/-- Modelled from the spec: `is_url` (rocrate/utils.py, a file not included
under src/): an id counts as a URL exactly when it has both a scheme and a
network location ("absolute URL ids pass through" resolution). -/
def is_url (s : String) : Bool :=
  let p := pyUrlsplit s ""
  p.scheme ≠ "" && p.netloc ≠ ""

/-- `ROCrate.resolve_id` (rocrate/rocrate.py): join non-URL ids with the
crate's `arcp://uuid,.../` base URI, then strip trailing slashes. -/
def resolve_id (base id_ : String) : String :=
  rstripSlash (if is_url id_ then id_ else pyUrljoin base id_)

/-! ## JSON-LD property values

`rocrate_types.JsonLDProperty`: a stored property value is a primitive
(string / number / boolean, with numbers modelled as integers), `None`, a
reference dict, or a list of these.  Python dicts are insertion-ordered;
they are embedded as association lists. -/

/-- A Python value living in an entity's `_jsonld` dict. -/
inductive JVal where
  | null : JVal
  | str : String → JVal
  | int : Int → JVal
  | bool : Bool → JVal
  | dict : List (String × JVal) → JVal
  | list : List JVal → JVal

/-- Lookup in an insertion-ordered dict (`d[k]` read). -/
def dget {κ α : Type} [DecidableEq κ] : List (κ × α) → κ → Option α
  | [], _ => none
  | (k, v) :: rest, key => if k = key then some v else dget rest key

/-- Assignment in an insertion-ordered dict (`d[k] = v`): replace in place,
else append at the end. -/
def dset {κ α : Type} [DecidableEq κ] : List (κ × α) → κ → α → List (κ × α)
  | [], key, val => [(key, val)]
  | (k, v) :: rest, key, val =>
    if k = key then (key, val) :: rest else (k, v) :: dset rest key val

/-- Removal from an insertion-ordered dict (`d.pop(k, None)` / `del d[k]`). -/
def dpop {κ α : Type} [DecidableEq κ] : List (κ × α) → κ → List (κ × α)
  | [], _ => []
  | (k, v) :: rest, key => if k = key then rest else (k, v) :: dpop rest key

mutual

/-- Structural equality test for `JVal`. -/
def JVal.beq : JVal → JVal → Bool
  | .null, .null => true
  | .str a, .str b => a = b
  | .int a, .int b => a = b
  | .bool a, .bool b => a = b
  | .dict a, .dict b => beqKvs a b
  | .list a, .list b => beqList a b
  | _, _ => false

/-- Structural equality on value lists. -/
def beqList : List JVal → List JVal → Bool
  | [], [] => true
  | x :: xs, y :: ys => x.beq y && beqList xs ys
  | _, _ => false

/-- Structural equality on key-value lists. -/
def beqKvs : List (String × JVal) → List (String × JVal) → Bool
  | [], [] => true
  | (k, v) :: xs, (k2, v2) :: ys => k = k2 && v.beq v2 && beqKvs xs ys
  | _, _ => false

end

mutual

theorem JVal.beq_iff : ∀ a b : JVal, JVal.beq a b = true ↔ a = b
  | .null, .null => by simp [JVal.beq]
  | .str a, .str b => by simp [JVal.beq]
  | .int a, .int b => by simp [JVal.beq]
  | .bool a, .bool b => by simp [JVal.beq]
  | .dict a, .dict b => by
    simp only [JVal.beq, beqKvs_iff a b, JVal.dict.injEq]
  | .list a, .list b => by
    simp only [JVal.beq, beqList_iff a b, JVal.list.injEq]
  | .null, .str _ | .null, .int _ | .null, .bool _ | .null, .dict _
  | .null, .list _ | .str _, .null | .str _, .int _ | .str _, .bool _
  | .str _, .dict _ | .str _, .list _ | .int _, .null | .int _, .str _
  | .int _, .bool _ | .int _, .dict _ | .int _, .list _ | .bool _, .null
  | .bool _, .str _ | .bool _, .int _ | .bool _, .dict _ | .bool _, .list _
  | .dict _, .null | .dict _, .str _ | .dict _, .int _ | .dict _, .bool _
  | .dict _, .list _ | .list _, .null | .list _, .str _ | .list _, .int _
  | .list _, .bool _ | .list _, .dict _ => by simp [JVal.beq]

theorem beqList_iff : ∀ a b : List JVal, beqList a b = true ↔ a = b
  | [], [] => by simp [beqList]
  | x :: xs, y :: ys => by
    simp [beqList, JVal.beq_iff x y, beqList_iff xs ys]
  | [], _ :: _ | _ :: _, [] => by simp [beqList]

theorem beqKvs_iff :
    ∀ a b : List (String × JVal), beqKvs a b = true ↔ a = b
  | [], [] => by simp [beqKvs]
  | (k, v) :: xs, (k2, v2) :: ys => by
    simp [beqKvs, JVal.beq_iff v v2, beqKvs_iff xs ys, and_assoc]
  | [], _ :: _ | _ :: _, [] => by simp [beqKvs]

end

instance : DecidableEq JVal := fun a b =>
  decidable_of_iff (JVal.beq a b = true) (JVal.beq_iff a b)

/-! ## Python `==` on JSON values

Python compares dicts without regard to key order and identifies `True`/`False`
with `1`/`0`; lists compare elementwise.  `Entity.__eq__` compares the whole
`_jsonld` dicts with this equality, so it is modelled via a canonical form:
booleans become integers, dict entries are deduplicated (first occurrence
wins, matching `dget`) and sorted by key. -/

/-- Drop later duplicates of a key (first binding wins, as in `dget`). -/
def dedupKeys (seen : List String) :
    List (String × JVal) → List (String × JVal)
  | [] => []
  | (k, v) :: rest =>
    if seen.contains k then dedupKeys seen rest
    else (k, v) :: dedupKeys (k :: seen) rest

/-- Code-point comparison of strings (used only to pick one canonical key
order; any total order serves). -/
def charsLe : List Char → List Char → Bool
  | [], _ => true
  | _ :: _, [] => false
  | a :: as, b :: bs =>
    if a.val < b.val then true
    else if b.val < a.val then false
    else charsLe as bs

/-- Insertion into a key-sorted association list. -/
def insertByKey (p : String × JVal) :
    List (String × JVal) → List (String × JVal)
  | [] => [p]
  | q :: rest =>
    if charsLe (chars p.1) (chars q.1) then p :: q :: rest
    else q :: insertByKey p rest

/-- Key-sort of an association list. -/
def sortByKey (xs : List (String × JVal)) : List (String × JVal) :=
  xs.foldr insertByKey []

mutual

/-- Canonical form realizing Python `==` on JSON values. -/
def JVal.canon : JVal → JVal
  | .null => .null
  | .str s => .str s
  | .int n => .int n
  | .bool b => .int (if b then 1 else 0)
  | .list xs => .list (canonList xs)
  | .dict kvs => .dict (sortByKey (dedupKeys [] (canonKvs kvs)))

/-- Canonical form, mapped over a value list. -/
def canonList : List JVal → List JVal
  | [] => []
  | x :: xs => x.canon :: canonList xs

/-- Canonical form, mapped over dict entries. -/
def canonKvs : List (String × JVal) → List (String × JVal)
  | [] => []
  | (k, v) :: rest => (k, v.canon) :: canonKvs rest

end

/-- Python `==` on JSON values. -/
def pyValEq (a b : JVal) : Bool := a.canon = b.canon

/-- Python `==` on whole property dicts (`self._jsonld == other._jsonld`). -/
def pyDictEq (a b : List (String × JVal)) : Bool :=
  pyValEq (.dict a) (.dict b)

/-! ## Entities

`Entity` (rocrate/model/entity.py) is a dict-like node owned by a crate.  The
concrete Python class matters to `ROCrate.add` / `ROCrate.delete` (isinstance
checks and the duck-typed `hasattr(e, "write")` test), so each entity carries
a class tag. -/

/-- The entity classes the graph bookkeeping distinguishes. -/
inductive EntityClass where
  | rootDataset
  | metadata
  | legacyMetadata
  | preview
  | file
  | dataset
  | dataEntity
  | contextEntity
deriving DecidableEq, Repr

/-- Modelled from the spec for the class files not included under src/
(model/data_entity.py, model/contextentity.py): data entities — files,
datasets, the generic `DataEntity` — and the default entities expose the
byte-stream/write capability (`hasattr(e, "write")`); contextual entities do
not. -/
def EntityClass.hasWrite : EntityClass → Bool
  | .contextEntity => false
  | _ => true

/-- The state of one `Entity` object: class tag, immutable raw id
(`self.__id`), and the `_jsonld` property dict. -/
structure EntityData where
  cls : EntityClass
  id : String
  jsonld : List (String × JVal)
deriving DecidableEq

/-- `Entity.format_id` / `Dataset.format_id`: directory-like entities
canonicalize their raw id to end with exactly one trailing slash. -/
def formatId (cls : EntityClass) (identifier : String) : String :=
  match cls with
  | .dataset | .rootDataset => rstripSlash identifier ++ "/"
  | _ => identifier

/-- `Entity.canonical_id`: resolve the raw id through the owning crate. -/
def canonicalId (base : String) (d : EntityData) : String :=
  resolve_id base d.id

/-- `Entity.__hash__` is `hash(self.canonical_id())`: a function of the
canonical id only. -/
def entityHash (base : String) (d : EntityData) : UInt64 :=
  (canonicalId base d).hash

/-- `Entity.__eq__`: raw id equality plus Python `==` of the `_jsonld`
dicts (the class tag is not compared; any `Entity` instance passes the
isinstance test). -/
def entityEq (d1 d2 : EntityData) : Bool :=
  d1.id = d2.id && pyDictEq d1.jsonld d2.jsonld

/-! ## Property writes -/

/-- Errors raised by the modelled operations (Python exception classes). -/
inductive PyErr where
  | keyError : String → PyErr
  | valueError : String → PyErr
  | typeError : String → PyErr
  | fileNotFoundError : String → PyErr
  | runtimeError : String → PyErr
deriving DecidableEq, Repr

/-- One element of a value passed to `__setitem__` / `append_to`: a plain
JSON value or an `Entity` object (of which only the raw id is consumed,
via `_.id`). -/
inductive InItem where
  | val : JVal → InItem
  | ent : String → InItem
deriving DecidableEq

/-- A value passed to `__setitem__` / `append_to`: scalar or list
(`isinstance(value, list)` dispatch). -/
inductive InVal where
  | single : InItem → InVal
  | list : List InItem → InVal
deriving DecidableEq

/-- The normalization `{"@id": _.id} if isinstance(_, Entity) else _`. -/
def normInItem : InItem → JVal
  | .ent i => .dict [("@id", .str i)]
  | .val v => v

/-- Does `isinstance(v, dict) and "@id" not in v` hold? -/
def badRef : InItem → Bool
  | .val (.dict kvs) => (dget kvs "@id").isNone
  | _ => false

/-- `Entity.__setitem__`: reject reserved keys, reject bare dicts lacking
`@id`, store entities as references; the checks precede the store, so an
error leaves `_jsonld` unchanged. -/
def setitem (d : EntityData) (key : String) (value : InVal) :
    EntityData × Option PyErr :=
  if strStartsWith key "@" then (d, some (.keyError ("cannot set " ++ key)))
  else
    let values := match value with | .list xs => xs | .single x => [x]
    if values.any badRef then (d, some (.valueError "no @id"))
    else
      let stored := match value with
        | .list xs => JVal.list (xs.map normInItem)
        | .single x => normInItem x
      ({ d with jsonld := dset d.jsonld key stored }, none)

/-- `Entity.__delitem__`: reserved keys cannot be deleted; a missing key
raises `KeyError`. -/
def delitem (d : EntityData) (key : String) : EntityData × Option PyErr :=
  if strStartsWith key "@" then
    (d, some (.keyError ("cannot delete " ++ key)))
  else
    match dget d.jsonld key with
    | none => (d, some (.keyError key))
    | some _ => ({ d with jsonld := dpop d.jsonld key }, none)

/-- `Entity.append_to`: grow the value under `key` as an ordered sequence.
A missing key starts from `[]` (`setdefault`), a stored scalar is promoted
to a one-element list, the normalized new values are appended at the end,
and with `compact=True` a resulting one-element list collapses back to its
single element.  `inItems` is the `if not isinstance(value, list)` wrapping
of the appended value. -/
def inItems : InVal → List InItem
  | .single x => [x]
  | .list xs => xs

/-- The current value of `key` as a growable sequence, as `append_to` sees
it: missing key starts from `[]` (`setdefault(key, [])`), a stored scalar is
promoted to a one-element list. -/
def curItems (d : EntityData) (key : String) : List JVal :=
  match dget d.jsonld key with
  | none => []
  | some (.list xs) => xs
  | some v => [v]

/-- `Entity.append_to`: reject reserved keys; otherwise extend the current
sequence with the normalized values and collapse to a scalar when `compact`
is set and exactly one element results. -/
def append_to (d : EntityData) (key : String) (value : InVal)
    (compact : Bool) : EntityData × Option PyErr :=
  if strStartsWith key "@" then
    (d, some (.keyError ("cannot append to " ++ key)))
  else
    let newList := curItems d key ++ (inItems value).map normInItem
    let stored : JVal := match compact, newList with
      | true, [x] => x
      | _, xs => .list xs
    ({ d with jsonld := dset d.jsonld key stored }, none)

/-- Raw JSON image of a constructor property value, used for `@`-prefixed
keys which `Entity.__init__` stores verbatim (the model restricts those
values to JSON data, which is what the loader passes there). -/
def inValRaw : InVal → JVal
  | .single x => normInItem x
  | .list xs => .list (xs.map normInItem)

/-- `Entity.__init__`: start from the subclass skeleton `_empty()` and merge
the supplied properties on top, `@`-keys verbatim and the rest through
`__setitem__` (whose errors abort construction).  `emptySkeleton` stands for
the class's `_empty()` result and `freshId` for the `#uuid4` id minted when
the identifier is falsy. -/
def entityInit (cls : EntityClass) (freshId : String)
    (identifier : Option String) (emptySkeleton : String → List (String × JVal))
    (props : List (String × InVal)) : EntityData × Option PyErr :=
  let id0 := match identifier with
    | some i => if i = "" then freshId else formatId cls i
    | none => freshId
  props.foldl
    (fun (acc : EntityData × Option PyErr) (p : String × InVal) =>
      match acc with
      | (d, some e) => (d, some e)
      | (d, none) =>
        if strStartsWith p.1 "@" then
          ({ d with jsonld := dset d.jsonld p.1 (inValRaw p.2) }, none)
        else setitem d p.1 p.2)
    (⟨cls, id0, emptySkeleton id0⟩, none)

/-- `Entity._empty` for a plain entity (`@id` plus the class-derived default
type; plain `Entity` falls back to `"Thing"`). -/
def emptyPlain (defaultType : String) (id0 : String) :
    List (String × JVal) :=
  [("@id", .str id0), ("@type", .str defaultType)]

/-- `Dataset._empty`. -/
def emptyDataset (id0 : String) : List (String × JVal) :=
  [("@id", .str id0), ("@type", .str "Dataset")]

/-- `RootDataset._empty` (`iso_now()` passed in as `now`). -/
def emptyRootDataset (now : String) (id0 : String) :
    List (String × JVal) :=
  [("@id", .str id0), ("@type", .str "Dataset"), ("datePublished", .str now)]

/-! ## The crate: entity map, default slots, reads -/

/-- `ROCrate` state.  Entity objects live in a heap keyed by an object
reference (`Nat`), so that Python aliasing — `self.root_dataset` and the
entity map holding the same object — and `is`-identity checks are faithful.
`entityMap` is the insertion-ordered canonical-id → object map. -/
structure Crate where
  base : String
  heap : List (Nat × EntityData)
  entityMap : List (String × Nat)
  rootRef : Nat
  metaRef : Nat
  previewRef : Option Nat
deriving DecidableEq

/-- `ROCrate.dereference` / `ROCrate.get`: look the canonical id up in the
entity map. -/
def dereference (c : Crate) (id_ : String) : Option Nat :=
  dget c.entityMap (resolve_id c.base id_)

/-- A value coming out of `Entity.__getitem__` after dereferencing: a living
entity object (heap ref plus its state) or a plain JSON value. -/
inductive OutItem where
  | ent : Nat → EntityData → OutItem
  | raw : JVal → OutItem
deriving DecidableEq

/-- `Entity.__getitem__` results: the verbatim early return (reserved key or
stored `None`), a dereferenced scalar, or a dereferenced list. -/
inductive OutVal where
  | verbatim : JVal → OutVal
  | scalar : OutItem → OutVal
  | list : List OutItem → OutVal
deriving DecidableEq

/-- `self.crate.get(id_, id_)`: the registered entity if the canonical id
resolves, otherwise the `@id` string itself (the lookup default). -/
def crateGetOr (c : Crate) (id_ : String) : OutItem :=
  match dget c.entityMap (resolve_id c.base id_) with
  | some r =>
    match dget c.heap r with
    | some d => .ent r d
    | none => .raw (.str id_)
  | none => .raw (.str id_)

/-- Dereference one stored entry: dicts must carry `@id` (else
`ValueError`) and are looked up through the crate; everything else passes
through.  A non-string `@id` would make Python's `is_url` blow up with a
`TypeError`. -/
def derefEntry (c : Crate) (entry : JVal) : Except PyErr OutItem :=
  match entry with
  | .dict kvs =>
    match dget kvs "@id" with
    | none => .error (.valueError "no @id")
    | some (.str s) => .ok (crateGetOr c s)
    | some _ => .error (.typeError "id is not a string")
  | v => .ok (.raw v)

/-- The dereferencing loop of `__getitem__` over a stored list: left to
right, aborting at the first raising entry. -/
def derefList (c : Crate) : List JVal → Except PyErr (List OutItem)
  | [] => .ok []
  | x :: xs => do
    let y ← derefEntry c x
    let ys ← derefList c xs
    .ok (y :: ys)

/-- `Entity.__getitem__`: reserved keys and stored `None` return verbatim;
otherwise each reference is dereferenced through the owning crate, a stored
list yielding a list and a stored scalar a scalar. -/
def getitem (c : Crate) (d : EntityData) (key : String) :
    Except PyErr OutVal :=
  match dget d.jsonld key with
  | none => .error (.keyError key)
  | some v =>
    if v = .null ∨ strStartsWith key "@" then .ok (.verbatim v)
    else
      match v with
      | .list xs => (derefList c xs).map OutVal.list
      | x => (derefEntry c x).map OutVal.scalar

/-- `MutableMapping.get(key, default)`: `__getitem__` with only `KeyError`
turned into the default. -/
def getDefault (c : Crate) (d : EntityData) (key : String) (dflt : OutVal) :
    Except PyErr OutVal :=
  match getitem c d key with
  | .error (.keyError _) => .ok dflt
  | r => r

/-! ## `ROCrate.add` -/

/-- `self.root_dataset.append_to("hasPart", e)`: mutate the root dataset
object in the heap. -/
def appendHasPartRoot (c : Crate) (eid : String) : Crate :=
  match dget c.heap c.rootRef with
  | none => c
  | some rd =>
    { c with
      heap := dset c.heap c.rootRef
        (append_to rd "hasPart" (.single (.ent eid)) false).1 }

/-- `ROCrate.add` for one entity: the object `r` with state `d` enters the
heap; default entities take their slot; a writable non-default entity whose
canonical id is new is appended to the root dataset's `hasPart`; finally the
entity map entry for the canonical id is written (replacing any previous
holder). -/
def addOne (c : Crate) (r : Nat) (d : EntityData) : Crate :=
  let c := { c with heap := dset c.heap r d }
  let key := resolve_id c.base d.id
  match d.cls with
  | .rootDataset =>
    { c with rootRef := r, entityMap := dset c.entityMap key r }
  | .metadata | .legacyMetadata =>
    { c with metaRef := r, entityMap := dset c.entityMap key r }
  | .preview =>
    { c with previewRef := some r, entityMap := dset c.entityMap key r }
  | _ =>
    if d.cls.hasWrite && (dget c.entityMap key).isNone then
      let c1 := appendHasPartRoot c d.id
      { c1 with entityMap := dset c1.entityMap key r }
    else { c with entityMap := dset c.entityMap key r }

/-- `ROCrate.add(*entities)`: left-to-right. -/
def addMany (c : Crate) : List (Nat × EntityData) → Crate
  | [] => c
  | (r, d) :: rest => addMany (addOne c r d) rest

/-! ## `ROCrate.delete` -/

/-- One argument of `ROCrate.delete`: an `Entity` object or an id string
(the latter goes through `dereference`). -/
inductive DelArg where
  | ent : Nat → DelArg
  | ident : String → DelArg
deriving DecidableEq

/-- Is the dereferenced `hasPart` item `==` to the entity being deleted?
Raw values are never `==` to an `Entity` (both sides return
`NotImplemented`, so Python falls back to identity). -/
def outItemEqEntity (item : OutItem) (ed : EntityData) : Bool :=
  match item with
  | .ent _ dd => entityEq dd ed
  | .raw _ => false

/-- Convert a dereferenced `hasPart` item back into a `__setitem__` input
(the list comprehension result assigned to `root_dataset["hasPart"]`). -/
def outToIn : OutItem → InItem
  | .ent _ dd => .ent dd.id
  | .raw v => .val v

/-- The `hasPart` repair in `ROCrate.delete` for a writable entity `ed`:
`self.root_dataset["hasPart"] = [_ for _ in self.root_dataset.get("hasPart",
[]) if _ != e]`, then drop the property if the remaining list is empty.
Reading dereferences each entry (a `ValueError` from a bare dict propagates
and leaves the root untouched); writing re-encodes entities as references,
so a dangling reference comes back as its plain `@id` string.  A stored
non-list `hasPart` (unreachable through the crate API, which always stores
lists there) is modelled as a `TypeError` instead of Python's duck-typed
iteration over a scalar. -/
def filterRootHasPart (c : Crate) (ed : EntityData) :
    Crate × Option PyErr :=
  match dget c.heap c.rootRef with
  | none => (c, none)
  | some rd =>
    match getDefault c rd "hasPart" (.list []) with
    | .error e => (c, some e)
    | .ok (.list items) =>
      let kept := items.filter (fun it => ¬ outItemEqEntity it ed)
      let rd1 := (setitem rd "hasPart" (.list (kept.map outToIn))).1
      let rd2 :=
        if kept.isEmpty then { rd1 with jsonld := dpop rd1.jsonld "hasPart" }
        else rd1
      ({ c with heap := dset c.heap c.rootRef rd2 }, none)
    | .ok _ => (c, some (.typeError "hasPart is not a list"))

/-- `ROCrate.delete` for one argument: strings are dereferenced; a falsy
result (`None`, or an entity with an empty `_jsonld`) is skipped; the root
dataset and the metadata entity are protected by `is`-identity checks that
raise before any mutation; a preview clears its slot; other writable
entities are removed from the root's `hasPart`; finally the map entry for
the canonical id is popped. -/
def deleteOne (c : Crate) (a : DelArg) : Crate × Option PyErr :=
  let eref : Option Nat := match a with
    | .ent r => some r
    | .ident s => dereference c s
  match eref with
  | none => (c, none)
  | some r =>
    match dget c.heap r with
    | none => (c, none)
    | some d =>
      if d.jsonld.isEmpty then (c, none)
      else if r = c.rootRef then
        (c, some (.valueError "cannot delete the root data entity"))
      else if r = c.metaRef then
        (c, some (.valueError "cannot delete the metadata entity"))
      else
        let step : Crate × Option PyErr :=
          if c.previewRef = some r then
            ({ c with previewRef := none }, none)
          else if d.cls.hasWrite then filterRootHasPart c d
          else (c, none)
        match step with
        | (c1, some e) => (c1, some e)
        | (c1, none) =>
          ({ c1 with
             entityMap := dpop c1.entityMap (canonicalId c.base d) }, none)

/-- `ROCrate.delete(*entities)`: left-to-right, aborting at the first raise
and keeping the mutations already performed. -/
def deleteMany (c : Crate) : List DelArg → Crate × Option PyErr
  | [] => (c, none)
  | a :: rest =>
    match deleteOne c a with
    | (c1, some e) => (c1, some e)
    | (c1, none) => deleteMany c1 rest

/-! ## Load-time type dispatch (`pick_type`) -/

/-- Python `str.strip()` on the type names (ASCII whitespace; the registered
type names contain none anyway). -/
def pyStrip (s : String) : String :=
  strOf (((chars s).dropWhile Char.isWhitespace).reverse.dropWhile
    Char.isWhitespace).reverse

/-- The comprehension over declared type names: each must be a string
(Python would hit an `AttributeError` on `strip` otherwise, modelled as a
`TypeError`-kind failure), and is stripped. -/
def stripTypes : List JVal → Except PyErr (List String)
  | [] => .ok []
  | v :: vs =>
    match v with
    | .str s => do
      let rest ← stripTypes vs
      .ok (pyStrip s :: rest)
    | _ => .error (.typeError "type name is not a string")

/-- `pick_type(json_entity, type_map, fallback)` (rocrate/rocrate.py): a
pending flattened entity must carry `@type` (else `ValueError`); its
declared type names are matched against the registered table in insertion
order, the first hit winning; no hit falls back. -/
def pick_type {α : Type} (jsonEntity : List (String × JVal))
    (typeMap : List (String × α)) (fallback : α) : Except PyErr α := do
  match dget jsonEntity "@type" with
  | none => .error (.valueError "entity has no @type")
  | some t =>
    let raw := match t with
      | .list xs => xs
      | v => [v]
    let types ← stripTypes raw
    match typeMap.find? (fun p => types.contains p.1) with
    | some p => .ok p.2
    | none => .ok fallback

/-- The per-entity dispatch that both loader passes (`ROCrate.__add_parts`
and `ROCrate.__read_contextual_entities`) perform on every pending entity:
`pick_type` is called outside any handler, so one failure aborts the whole
load. -/
def dispatchAll {α : Type} (typeMap : List (String × α)) (fallback : α) :
    List (List (String × JVal)) → Except PyErr (List α)
  | [] => .ok []
  | e :: rest => do
    let cls ← pick_type e typeMap fallback
    let more ← dispatchAll typeMap fallback rest
    .ok (cls :: more)

/-! ## `Dataset` streaming (rocrate/model/dataset.py)

Network and filesystem are external collaborators: `net url` stands for the
chunks `urlopen(url).read(chunk_size)` produces, and `FS` abstracts
`Path.exists` plus the `os.walk`-and-read loop of
`_stream_folder_from_path` (which yields, per file under the source
directory, pairs of the destination path relative to the source's parent
and one content chunk). -/

/-- Filesystem oracle. -/
structure FS where
  pathExists : String → Bool
  walkChunks : String → List (String × String)

/-- String form of `PurePosixPath(s)`: empty and `.` segments collapse
(`..` is kept); an absolute path keeps its leading slash; the empty path
renders as `.` (the `//`-prefix corner of pathlib is not modelled; no
dataset id starts with a slash). -/
def pyPathStr (s : String) : String :=
  let abs := strStartsWith s "/"
  let segs := (splitChar '/' (chars s)).filter
    (fun seg => seg ≠ [] ∧ seg ≠ ['.'])
  if segs.isEmpty then (if abs then "/" else ".")
  else (if abs then "/" else "") ++ strOf (joinChar '/' segs)

/-- `str(Path(a) / b)` for the non-absolute `b` this code produces. -/
def pathDiv (a b : String) : String :=
  if a = "" then pyPathStr b else pyPathStr (a ++ "/" ++ b)

/-- One `hasPart` entry during remote streaming: skipped when `@id` is
missing (`except KeyError` warning), fatal `RuntimeError` when the part is a
URL or an absolute path, otherwise streamed from `base/part` into
`Path(self.id) / part`. -/
def streamPart (net : String → List String) (base selfId : String)
    (entry : JVal) : Except PyErr (List (String × String)) :=
  match entry with
  | .dict kvs =>
    match dget kvs "@id" with
    | none => .ok []
    | some (.str part) =>
      if is_url part || strStartsWith part "/" then
        .error (.runtimeError ("part " ++ part ++ " is not a relative path"))
      else
        let partUri := base ++ "/" ++ part
        let relOut := pathDiv selfId part
        .ok ((net partUri).map (fun ch => (relOut, ch)))
    | some _ => .error (.typeError "id is not a string")
  | _ => .error (.typeError "entry is not a dict")

/-- Left-to-right streaming of the `hasPart` entries; chunks yielded before
a fatal entry are kept (the generator raises mid-iteration). -/
def streamParts (net : String → List String) (base selfId : String) :
    List JVal → List (String × String) × Option PyErr
  | [] => ([], none)
  | entry :: rest =>
    match streamPart net base selfId entry with
    | .error e => ([], some e)
    | .ok chunks =>
      let r := streamParts net base selfId rest
      (chunks ++ r.1, r.2)

/-- `Dataset._stream_folder_from_url`: without `fetch_remote` only the
optional validating request (which stamps `sdDatePublished`, `now` standing
for `iso_now()`); with `fetch_remote` every `hasPart` entry is streamed from
the base URL (`str(self.source).rstrip("/")`) joined with the part's
relative id.  A stored non-list `hasPart` (unreachable through the crate
API) is modelled as a `TypeError` instead of Python's duck-typed
iteration.  Returns (updated `_jsonld`, yielded chunks, raised error). -/
def streamFolderFromUrl (net : String → List String) (fetchRemote
    validateUrl : Bool) (source : String) (selfId : String)
    (jsonld : List (String × JVal)) (now : String) :
    List (String × JVal) × List (String × String) × Option PyErr :=
  if ¬ fetchRemote then
    if validateUrl then
      (dset jsonld "sdDatePublished" (.str now), [], none)
    else (jsonld, [], none)
  else
    let base := rstripSlash source
    match dget jsonld "hasPart" with
    | none => (jsonld, [], none)
    | some (.list entries) =>
      let r := streamParts net base selfId entries
      (jsonld, r.1, r.2)
    | some _ => (jsonld, [], some (.typeError "hasPart is not a list"))

/-- `Dataset._stream_folder_from_path`: a missing local source is fatal
(`FileNotFoundError`) before anything is yielded; directory contents are
walked only when the owning crate has no source (`if not self.crate.source`),
i.e. only for crates built from scratch. -/
def streamFolderFromPath (fs : FS) (crateSourceTruthy : Bool)
    (source : String) : List (String × String) × Option PyErr :=
  if ¬ fs.pathExists source then
    ([], some (.fileNotFoundError source))
  else if ¬ crateSourceTruthy then (fs.walkChunks source, none)
  else ([], none)

/-- `Dataset.stream`: no source yields nothing; a URL source streams from
the URL; a local source streams from the path. -/
def datasetStream (fs : FS) (net : String → List String)
    (crateSourceTruthy : Bool) (source : Option String)
    (fetchRemote validateUrl : Bool) (selfId : String)
    (jsonld : List (String × JVal)) (now : String) :
    List (String × JVal) × List (String × String) × Option PyErr :=
  match source with
  | none => (jsonld, [], none)
  | some s =>
    if is_url s then
      streamFolderFromUrl net fetchRemote validateUrl s selfId jsonld now
    else
      let r := streamFolderFromPath fs crateSourceTruthy s
      (jsonld, r.1, r.2)

/-! ## Concrete fixtures

A representative crate, as `ROCrate()` followed by `add_file` builds it: the
`arcp` base URI with a fixed uuid, the root dataset (id `./`), the metadata
descriptor, and one file entity `f.txt`. -/

/-- A concrete `arcp` base URI (the uuid is random per crate instance; the
resolution behaviour does not depend on it). -/
def tb : String := "arcp://uuid,b3e1dbd3-115a-4d7f-ba35-f439e68c3ebe/"

/-- The root dataset entity of the fixture crate. -/
def rootD : EntityData :=
  ⟨.rootDataset, "./", emptyRootDataset "2025-01-01T00:00:00+00:00" "./"⟩

/-- The metadata descriptor entity of the fixture crate (properties as the
spec describes the metadata skeleton; only nonemptiness matters here). -/
def metaD : EntityData :=
  ⟨.metadata, "ro-crate-metadata.json",
   [("@id", .str "ro-crate-metadata.json"), ("@type", .str "CreativeWork"),
    ("about", .dict [("@id", .str "./")])]⟩

/-- A file data entity `f.txt`. -/
def fileD : EntityData :=
  ⟨.file, "f.txt", [("@id", .str "f.txt"), ("@type", .str "File")]⟩

/-- The fixture crate: fresh construction plus one added file. -/
def cEx : Crate :=
  addMany ⟨tb, [], [], 0, 0, none⟩ [(0, rootD), (1, metaD), (2, fileD)]

/-- A second `f.txt` entity object (different property state), used to
exercise the replace-on-collision path of `add`. -/
def fileD2 : EntityData :=
  ⟨.file, "f.txt",
   [("@id", .str "f.txt"), ("@type", .str "File"), ("name", .str "other")]⟩

/-- An entity built by the `Entity` constructor with raw id `"data"` and an
explicit `@id` property override. -/
def dIdA : EntityData :=
  (entityInit .contextEntity "#fresh" (some "data") (emptyPlain "Thing")
    [("@id", .single (.val (.str "z")))]).1

/-- The same construction with raw id `"data/"`: same canonical id, same
property snapshot, different raw id. -/
def dIdB : EntityData :=
  (entityInit .contextEntity "#fresh" (some "data/") (emptyPlain "Thing")
    [("@id", .single (.val (.str "z")))]).1

/-- An entity holding a dangling reference `{"@id": "#nobody"}` under
`author`. -/
def dangD : EntityData :=
  ⟨.contextEntity, "#e",
   [("@id", .str "#e"), ("@type", .str "Thing"),
    ("author", .dict [("@id", .str "#nobody")])]⟩

/-- An entity holding a resolvable reference to `f.txt` under `p`, and a
mixed list under `parts`. -/
def refD : EntityData :=
  ⟨.contextEntity, "#e2",
   [("@id", .str "#e2"), ("@type", .str "Thing"),
    ("p", .dict [("@id", .str "f.txt")]),
    ("parts", .list [.dict [("@id", .str "f.txt")], .str "plain"])]⟩

/-- The root dataset's stored `hasPart` property. -/
def rootHasPart (c : Crate) : Option JVal :=
  match dget c.heap c.rootRef with
  | some rd => dget rd.jsonld "hasPart"
  | none => none

/-- The root dataset object of the fixture crate as stored after
construction: skeleton plus the `hasPart` reference to `f.txt`. -/
def rootDFull : EntityData :=
  ⟨.rootDataset, "./",
   [("@id", .str "./"), ("@type", .str "Dataset"),
    ("datePublished", .str "2025-01-01T00:00:00+00:00"),
    ("hasPart", .list [.dict [("@id", .str "f.txt")]])]⟩

instance {ε α : Type} [DecidableEq ε] [DecidableEq α] :
    DecidableEq (Except ε α) := fun a b =>
  match a, b with
  | .ok x, .ok y =>
    if h : x = y then .isTrue (by rw [h])
    else .isFalse (by simp [h])
  | .error x, .error y =>
    if h : x = y then .isTrue (by rw [h])
    else .isFalse (by simp [h])
  | .ok _, .error _ => .isFalse (by simp)
  | .error _, .ok _ => .isFalse (by simp)

/-! ## Dict-operation lemmas -/

theorem dget_dset_self {κ α : Type} [DecidableEq κ]
    (m : List (κ × α)) (k : κ) (v : α) : dget (dset m k v) k = some v := by
  induction m with
  | nil => simp [dget, dset]
  | cons p rest ih =>
    by_cases h : p.1 = k
    · simp [dget, dset, h]
    · obtain ⟨k0, v0⟩ := p
      simp only at h
      simp [dget, dset, h, ih]

theorem dget_dset_ne {κ α : Type} [DecidableEq κ]
    (m : List (κ × α)) (k k0 : κ) (v : α) (h : k0 ≠ k) :
    dget (dset m k v) k0 = dget m k0 := by
  have h2 : ¬ k = k0 := fun hh => h hh.symm
  induction m with
  | nil => simp [dget, dset, h2]
  | cons p rest ih =>
    obtain ⟨k1, v1⟩ := p
    by_cases h1 : k1 = k
    · subst h1
      simp [dget, dset, h2]
    · by_cases h3 : k1 = k0 <;> simp [dget, dset, h, h1, h3, ih]

theorem dset_length {κ α : Type} [DecidableEq κ]
    (m : List (κ × α)) (k : κ) (v : α) (h : (dget m k).isSome) :
    (dset m k v).length = m.length := by
  induction m with
  | nil => simp [dget] at h
  | cons p rest ih =>
    obtain ⟨k1, v1⟩ := p
    by_cases h1 : k1 = k
    · simp [dset, h1]
    · simp only [dget, h1, if_false] at h
      simp [dset, h1, ih h]

/-! ## Claim C1 -/

/-- C1, counterexample: two `Entity` instances of the same crate built by the
constructor with raw ids `"data"` and `"data/"` (the `@id` property
overridden to the same value) have equal canonical ids and Python-equal
property snapshots, yet `__eq__` is false, because `Entity.__eq__` compares
the raw `self.id`, not the canonical id. -/
theorem entityEq_canonical_counterexample :
    canonicalId tb dIdA = canonicalId tb dIdB
  ∧ pyDictEq dIdA.jsonld dIdB.jsonld = true
  ∧ entityEq dIdA dIdB = false := by decide

/-- C1, amended: hashes are a function of the canonical id alone, and `==`
implies equal canonical ids and matching snapshots; but `==` holds exactly
when the RAW ids and the property snapshots match (equal canonical id is
necessary, not sufficient). -/
theorem entityEq_hash_contract (base : String) (d1 d2 : EntityData) :
    (canonicalId base d1 = canonicalId base d2 →
      entityHash base d1 = entityHash base d2)
  ∧ (entityEq d1 d2 = true →
      canonicalId base d1 = canonicalId base d2
      ∧ pyDictEq d1.jsonld d2.jsonld = true)
  ∧ (entityEq d1 d2 = true ↔
      (d1.id = d2.id ∧ pyDictEq d1.jsonld d2.jsonld = true)) := by
  have h3 : entityEq d1 d2 = true ↔
      (d1.id = d2.id ∧ pyDictEq d1.jsonld d2.jsonld = true) := by
    simp [entityEq]
  refine ⟨fun h => ?_, fun h => ?_, h3⟩
  · unfold entityHash
    rw [h]
  · obtain ⟨hid, hsnap⟩ := h3.mp h
    exact ⟨by unfold canonicalId; rw [hid], hsnap⟩

/-- C1, witness: the hash contract applied to the concrete colliding pair,
and the `==` characterization applied to a concrete entity. -/
theorem entityEq_hash_contract_witness :
    entityHash tb dIdA = entityHash tb dIdB ∧ entityEq fileD fileD = true :=
  ⟨(entityEq_hash_contract tb dIdA dIdB).1 (by decide),
   (entityEq_hash_contract tb fileD fileD).2.2.mpr ⟨rfl, by decide⟩⟩

/-! ## Claim C2 -/

/-- C2: when the canonical id of the added entity is already a key of the
entity map, `add` replaces the map entry (last write wins), the entity count
is unchanged, the only heap effect is installing the added object itself (so
no stored `hasPart` list of any other entity changes), and — unless the
added entity is a root dataset replacing the root slot — the root's
`hasPart` is untouched. -/
theorem add_collision_replaces (c : Crate) (r : Nat) (d : EntityData)
    (hkey : (dget c.entityMap (resolve_id c.base d.id)).isSome = true) :
    dget (addOne c r d).entityMap (resolve_id c.base d.id) = some r
  ∧ (addOne c r d).entityMap.length = c.entityMap.length
  ∧ (addOne c r d).heap = dset c.heap r d
  ∧ (d.cls = .rootDataset ∨ (addOne c r d).rootRef = c.rootRef)
  ∧ (d.cls ≠ .rootDataset → r ≠ c.rootRef →
      rootHasPart (addOne c r d) = rootHasPart c) := by
  obtain ⟨cls, id, jsonld⟩ := d
  cases hc : dget c.entityMap (resolve_id c.base id) with
  | none => rw [hc] at hkey; simp at hkey
  | some w =>
    have hsome : (dget c.entityMap (resolve_id c.base id)).isSome = true := by
      rw [hc]; rfl
    cases cls <;>
      refine ⟨?_, ?_, ?_, ?_, ?_⟩ <;>
      simp only [addOne, EntityClass.hasWrite, hc, Option.isNone_some,
        Bool.and_false, Bool.false_eq_true, if_false, ne_eq,
        not_true_eq_false, not_false_eq_true, IsEmpty.forall_iff,
        forall_true_left] <;>
      first
        | exact dget_dset_self _ _ _
        | exact dset_length _ _ _ hsome
        | rfl
        | exact Or.inl rfl
        | exact Or.inl trivial
        | exact Or.inr rfl
        | trivial
        | (intro h hr
           simp only [rootHasPart]
           rw [dget_dset_ne c.heap r c.rootRef _ (fun hh => hr hh.symm)])

/-- C2, witness: re-adding a second `f.txt` object to the fixture crate
replaces the map entry without growing the map or the root's `hasPart`. -/
theorem add_collision_replaces_witness :
    dget (addOne cEx 3 fileD2).entityMap (resolve_id cEx.base fileD2.id) = some 3
  ∧ (addOne cEx 3 fileD2).entityMap.length = cEx.entityMap.length
  ∧ rootHasPart (addOne cEx 3 fileD2) = rootHasPart cEx :=
  ⟨(add_collision_replaces cEx 3 fileD2 (by decide)).1,
   (add_collision_replaces cEx 3 fileD2 (by decide)).2.1,
   (add_collision_replaces cEx 3 fileD2 (by decide)).2.2.2.2
     (by decide) (by decide)⟩

/-! ## Claim C4 -/

/-- C4, counterexample: a delete call naming several entities with the root
dataset not first.  `delete(file, root)` raises the protected-root error,
but the file has already been removed from the entity map (and from the
root's `hasPart`): the crate state is NOT what it was before the call. -/
theorem delete_protected_counterexample :
    (deleteMany cEx [.ent 2, .ent 0]).2 =
      some (.valueError "cannot delete the root data entity")
  ∧ dget cEx.entityMap "f.txt" = some 2
  ∧ dget (deleteMany cEx [.ent 2, .ent 0]).1.entityMap "f.txt" = none
  ∧ (deleteMany cEx [.ent 2, .ent 0]).1 ≠ cEx := by decide

/-- C4, amended: when the root dataset or the metadata entity is the FIRST
entity named, `delete` raises the protecting `ValueError` before any
mutation, whatever else the call names: the crate state is exactly the
state before the call.  (In a multi-entity call the raise aborts the loop,
so entities processed before the offending one stay deleted.) -/
theorem delete_protected_first (c : Crate) (rest : List DelArg)
    (dr dm : EntityData)
    (hr : dget c.heap c.rootRef = some dr) (hrne : dr.jsonld ≠ [])
    (hm : dget c.heap c.metaRef = some dm) (hmne : dm.jsonld ≠ [])
    (hne : c.metaRef ≠ c.rootRef) :
    deleteMany c (.ent c.rootRef :: rest) =
      (c, some (.valueError "cannot delete the root data entity"))
  ∧ deleteMany c (.ent c.metaRef :: rest) =
      (c, some (.valueError "cannot delete the metadata entity")) := by
  have hre : dr.jsonld.isEmpty = false := by
    cases h : dr.jsonld with
    | nil => exact absurd h hrne
    | cons a l => rfl
  have hme : dm.jsonld.isEmpty = false := by
    cases h : dm.jsonld with
    | nil => exact absurd h hmne
    | cons a l => rfl
  constructor
  · simp [deleteMany, deleteOne, hr, hre]
  · simp [deleteMany, deleteOne, hm, hme, hne]

/-- C4, witness: on the fixture crate, `delete(root)` and `delete(metadata)`
raise and leave the crate exactly unchanged. -/
theorem delete_protected_first_witness :
    deleteMany cEx [.ent cEx.rootRef] =
      (cEx, some (.valueError "cannot delete the root data entity"))
  ∧ deleteMany cEx [.ent cEx.metaRef] =
      (cEx, some (.valueError "cannot delete the metadata entity")) :=
  ⟨(delete_protected_first cEx [] rootDFull metaD (by decide) (by decide)
      (by decide) (by decide) (by decide)).1,
   (delete_protected_first cEx [] rootDFull metaD (by decide) (by decide)
      (by decide) (by decide) (by decide)).2⟩

/-! ## Claim C5 -/

/-- C5: the failing input.  `resolve_id` strips the trailing slash, so
`"data"` and `"data/"` share one canonical key; but `urljoin` against the
crate's `arcp://` base returns relative references unchanged (`arcp` is not
in CPython's `uses_relative`), so no dot-segment normalization happens and
`"./data/"` resolves to a different key — contradicting the code's own
comment ("also does path normalization") and the spec. -/
theorem resolve_id_no_dot_normalization :
    resolve_id tb "data" = "data"
  ∧ resolve_id tb "data/" = "data"
  ∧ resolve_id tb "./data/" = "./data"
  ∧ resolve_id tb "./data/" ≠ resolve_id tb "data" := by decide

/-! ## Claim C3 -/

theorem derefList_length (c : Crate) :
    ∀ (xs : List JVal) (ys : List OutItem),
      derefList c xs = .ok ys → ys.length = xs.length := by
  intro xs
  induction xs with
  | nil => intro ys h; simp [derefList] at h; simp [← h]
  | cons x rest ih =>
    intro ys h
    simp only [derefList, bind, Except.bind] at h
    cases hx : derefEntry c x with
    | error e => rw [hx] at h; exact absurd h (by simp)
    | ok y =>
      rw [hx] at h
      cases hr : derefList c rest with
      | error e => rw [hr] at h; exact absurd h (by simp)
      | ok ys0 =>
        rw [hr] at h
        cases h
        simp [ih ys0 hr]

/-- C3, counterexample: an entity of the fixture crate stores the dangling
reference `{"@id": "#nobody"}` under `author`.  Item-read returns the `@id`
STRING `"#nobody"` (the default argument `id_` of `self.crate.get(id_,
id_)`), not the stored raw reference dict, so "the raw reference value is
returned unchanged" fails. -/
theorem getitem_dangling_counterexample :
    dereference cEx "#nobody" = none
  ∧ dget dangD.jsonld "author" = some (.dict [("@id", .str "#nobody")])
  ∧ getitem cEx dangD "author" = .ok (.scalar (.raw (.str "#nobody")))
  ∧ getitem cEx dangD "author" ≠
      .ok (.scalar (.raw (.dict [("@id", .str "#nobody")]))) := by decide

/-- C3, amended: reserved `@`-keys read verbatim; a stored reference whose
id resolves to a registered entity reads as that living entity; a dangling
reference reads as its `@id` string (not the raw dict); a stored list reads
as a list of the same length with each entry dereferenced, and a stored
scalar as a scalar. -/
theorem getitem_deref_contract (c : Crate) (d : EntityData) (k : String) :
    (∀ v, strStartsWith k "@" = true → dget d.jsonld k = some v →
       getitem c d k = .ok (.verbatim v))
  ∧ (∀ kvs s r dd, strStartsWith k "@" = false →
       dget d.jsonld k = some (.dict kvs) →
       dget kvs "@id" = some (.str s) →
       dget c.entityMap (resolve_id c.base s) = some r →
       dget c.heap r = some dd →
       getitem c d k = .ok (.scalar (.ent r dd)))
  ∧ (∀ kvs s, strStartsWith k "@" = false →
       dget d.jsonld k = some (.dict kvs) →
       dget kvs "@id" = some (.str s) →
       dget c.entityMap (resolve_id c.base s) = none →
       getitem c d k = .ok (.scalar (.raw (.str s))))
  ∧ (∀ xs ys, strStartsWith k "@" = false →
       dget d.jsonld k = some (.list xs) →
       derefList c xs = .ok ys →
       getitem c d k = .ok (.list ys) ∧ ys.length = xs.length)
  ∧ (∀ s0, strStartsWith k "@" = false →
       dget d.jsonld k = some (.str s0) →
       getitem c d k = .ok (.scalar (.raw (.str s0)))) := by
  refine ⟨?_, ?_, ?_, ?_, ?_⟩
  · intro v hk hv
    simp [getitem, hv, hk]
  · intro kvs s r dd hk hv hid hmap hheap
    simp [getitem, hv, hk, derefEntry, hid, crateGetOr, hmap, hheap,
      Except.map]
  · intro kvs s hk hv hid hmap
    simp [getitem, hv, hk, derefEntry, hid, crateGetOr, hmap, Except.map]
  · intro xs ys hk hv hds
    refine ⟨?_, derefList_length c xs ys hds⟩
    simp [getitem, hv, hk, hds, Except.map]
  · intro s0 hk hv
    simp [getitem, hv, hk, derefEntry, Except.map]

/-- C3, witness: on the fixture crate, reading `@id` is verbatim, the
reference to registered `f.txt` reads as the living file entity, the
dangling reference reads as its id string, and the stored two-element list
reads as a two-element list. -/
theorem getitem_deref_contract_witness :
    getitem cEx refD "@id" = .ok (.verbatim (.str "#e2"))
  ∧ getitem cEx refD "p" = .ok (.scalar (.ent 2 fileD))
  ∧ getitem cEx dangD "author" = .ok (.scalar (.raw (.str "#nobody")))
  ∧ getitem cEx refD "parts" =
      .ok (.list [.ent 2 fileD, .raw (.str "plain")]) :=
  ⟨(getitem_deref_contract cEx refD "@id").1 (.str "#e2") (by decide)
     (by decide),
   (getitem_deref_contract cEx refD "p").2.1 [("@id", .str "f.txt")]
     "f.txt" 2 fileD (by decide) (by decide) (by decide) (by decide)
     (by decide),
   (getitem_deref_contract cEx dangD "author").2.2.1
     [("@id", .str "#nobody")] "#nobody" (by decide) (by decide)
     (by decide) (by decide),
   ((getitem_deref_contract cEx refD "parts").2.2.2.1
     [.dict [("@id", .str "f.txt")], .str "plain"]
     [.ent 2 fileD, .raw (.str "plain")] (by decide) (by decide)
     (by decide)).1⟩

/-! ## Claim C6 -/

/-- C6: `__setitem__` raises `KeyError` on a reserved `@`-key and
`ValueError` when the value — or any element of a list value — is a bare
mapping without `@id`; an `Entity` value (element) is stored as the
reference `{"@id": value.id}`; and whenever an error is reported the
property store is unchanged (the checks precede the assignment). -/
theorem setitem_contract (d : EntityData) (k : String) (v : InVal) :
    (strStartsWith k "@" = true →
      setitem d k v = (d, some (.keyError ("cannot set " ++ k))))
  ∧ (∀ x, strStartsWith k "@" = false → v = .single x → badRef x = true →
      setitem d k v = (d, some (.valueError "no @id")))
  ∧ (∀ xs, strStartsWith k "@" = false → v = .list xs →
      xs.any badRef = true →
      setitem d k v = (d, some (.valueError "no @id")))
  ∧ (∀ i, strStartsWith k "@" = false → v = .single (.ent i) →
      setitem d k v =
        ({ d with jsonld := dset d.jsonld k (.dict [("@id", .str i)]) },
         none))
  ∧ (∀ xs, strStartsWith k "@" = false → v = .list xs →
      xs.any badRef = false →
      setitem d k v =
        ({ d with jsonld := dset d.jsonld k (.list (xs.map normInItem)) },
         none))
  ∧ ((setitem d k v).2.isSome = true → (setitem d k v).1 = d) := by
  refine ⟨?_, ?_, ?_, ?_, ?_, ?_⟩
  · intro hk
    simp [setitem, hk]
  · intro x hk hv hb
    subst hv
    simp [setitem, hk, hb]
  · intro xs hk hv hb
    subst hv
    simp [setitem, hk, hb]
  · intro i hk hv
    subst hv
    simp [setitem, hk, badRef, normInItem]
  · intro xs hk hv hb
    subst hv
    simp [setitem, hk, hb]
  · intro herr
    unfold setitem at herr ⊢
    by_cases hk : strStartsWith k "@" = true
    · simp [hk]
    · simp only [Bool.not_eq_true] at hk
      simp only [hk, Bool.false_eq_true, if_false] at herr ⊢
      by_cases hb : (match v with
          | .list xs => xs
          | .single x => [x]).any badRef = true
      · simp [hb]
      · simp only [Bool.not_eq_true] at hb
        simp [hb] at herr

/-- C6, witness: on the file fixture, a reserved key raises, a bare dict
without `@id` raises, and an entity value is stored as a reference. -/
theorem setitem_contract_witness :
    setitem fileD "@id" (.single (.val (.str "x"))) =
      (fileD, some (.keyError "cannot set @id"))
  ∧ setitem fileD "author" (.single (.val (.dict [("name", .str "a")]))) =
      (fileD, some (.valueError "no @id"))
  ∧ setitem fileD "about" (.single (.ent "./")) =
      ({ fileD with
         jsonld := dset fileD.jsonld "about" (.dict [("@id", .str "./")]) },
       none) :=
  ⟨(setitem_contract fileD "@id" (.single (.val (.str "x")))).1 (by decide),
   (setitem_contract fileD "author"
      (.single (.val (.dict [("name", .str "a")])))).2.1
     (.val (.dict [("name", .str "a")])) (by decide) rfl (by decide),
   (setitem_contract fileD "about" (.single (.ent "./"))).2.2.2.1 "./"
     (by decide) rfl⟩

/-! ## Claim C7 -/

/-- C7: `append_to` on a reserved `@`-key raises `KeyError`; otherwise the
current value is treated as a growable ordered sequence — `[]` for a missing
key, a one-element sequence for a stored scalar, the list itself for a
stored list — the normalized values (entities become `{"@id": id}`) are
appended at the end in order, and the result is stored as a list except
that `compact` collapses an exactly-one-element result to its single
element. -/
theorem append_to_contract (d : EntityData) (k : String) (v : InVal)
    (compact : Bool) :
    (strStartsWith k "@" = true →
      append_to d k v compact =
        (d, some (.keyError ("cannot append to " ++ k))))
  ∧ (∀ x, strStartsWith k "@" = false → compact = true →
      curItems d k ++ (inItems v).map normInItem = [x] →
      append_to d k v compact =
        ({ d with jsonld := dset d.jsonld k x }, none))
  ∧ (strStartsWith k "@" = false →
      (compact = false ∨
        (curItems d k ++ (inItems v).map normInItem).length ≠ 1) →
      append_to d k v compact =
        ({ d with jsonld := dset d.jsonld k (.list (curItems d k ++ (inItems v).map normInItem)) }, none))
  ∧ (dget d.jsonld k = none → curItems d k = [])
  ∧ (∀ v0, dget d.jsonld k = some v0 → (∀ xs, v0 ≠ .list xs) →
      curItems d k = [v0])
  ∧ (∀ xs, dget d.jsonld k = some (.list xs) → curItems d k = xs) := by
  refine ⟨?_, ?_, ?_, ?_, ?_, ?_⟩
  · intro hk
    simp [append_to, hk]
  · intro x hk hc hlist
    subst hc
    simp [append_to, hk, hlist]
  · intro hk hc
    have harm : (match compact, curItems d k ++ (inItems v).map normInItem
        with
        | true, [x] => x
        | _, xs => JVal.list xs) =
        .list (curItems d k ++ (inItems v).map normInItem) := by
      rcases hc with hc | hc
      · subst hc
        rfl
      · cases compact
        · rfl
        · cases hl : curItems d k ++ (inItems v).map normInItem with
          | nil => rfl
          | cons y ys =>
            cases ys with
            | nil => rw [hl] at hc; exact absurd rfl hc
            | cons z zs => rfl
    simp [append_to, hk, harm]
  · intro h
    simp [curItems, h]
  · intro v0 h hnl
    cases v0 <;> simp [curItems, h]
    exact absurd rfl (hnl _)
  · intro xs h
    simp [curItems, h]

/-- An entity fixture with a scalar `tag` property, for append witnesses. -/
def tagD : EntityData :=
  ⟨.contextEntity, "#s", [("@id", .str "#s"), ("tag", .str "one")]⟩

/-- C7, witness: appending to a missing key starts from the empty sequence;
appending to a scalar promotes it and preserves order; `compact` collapses a
one-element result; entity values are stored as references. -/
theorem append_to_contract_witness :
    append_to tagD "items" (.single (.val (.str "x"))) false =
      ({ tagD with
         jsonld := dset tagD.jsonld "items" (.list [.str "x"]) }, none)
  ∧ append_to tagD "tag" (.single (.val (.str "two"))) false =
      ({ tagD with
         jsonld := dset tagD.jsonld "tag"
           (.list [.str "one", .str "two"]) }, none)
  ∧ append_to tagD "new" (.single (.ent "f.txt")) true =
      ({ tagD with
         jsonld := dset tagD.jsonld "new" (.dict [("@id", .str "f.txt")]) },
       none) :=
  ⟨(append_to_contract tagD "items" (.single (.val (.str "x"))) false).2.2.1
     (by decide) (Or.inl rfl),
   (append_to_contract tagD "tag" (.single (.val (.str "two"))) false).2.2.1
     (by decide) (Or.inl rfl),
   (append_to_contract tagD "new" (.single (.ent "f.txt")) true).2.1
     (.dict [("@id", .str "f.txt")]) (by decide) rfl (by decide)⟩

/-! ## Claim C8 -/

/-- C8: remote streaming of a Dataset with `fetch_remote`.  A `hasPart`
entry whose `@id` is a URL or an absolute path raises the fatal
`RuntimeError` (`InvalidPartReference`); an entry missing `@id` is skipped
non-fatally (the stream continues with the remaining entries); a relative
entry is streamed from the base URL (`source.rstrip("/")`) joined with the
part id, into `Path(self.id) / part`. -/
theorem stream_remote_contract (net : String → List String) (vu : Bool)
    (source selfId now : String) (jsonld : List (String × JVal))
    (entries : List JVal)
    (hhp : dget jsonld "hasPart" = some (.list entries)) :
    (∀ kvs part rest, entries = .dict kvs :: rest →
       dget kvs "@id" = some (.str part) →
       (is_url part || strStartsWith part "/") = true →
       streamFolderFromUrl net true vu source selfId jsonld now =
         (jsonld, [],
          some (.runtimeError ("part " ++ part ++ " is not a relative path"))))
  ∧ (∀ kvs rest, entries = .dict kvs :: rest → dget kvs "@id" = none →
       streamFolderFromUrl net true vu source selfId jsonld now =
         (jsonld, (streamParts net (rstripSlash source) selfId rest).1,
          (streamParts net (rstripSlash source) selfId rest).2))
  ∧ (∀ kvs part rest, entries = .dict kvs :: rest →
       dget kvs "@id" = some (.str part) →
       (is_url part || strStartsWith part "/") = false →
       streamFolderFromUrl net true vu source selfId jsonld now =
         (jsonld,
          (net (rstripSlash source ++ "/" ++ part)).map
            (fun ch => (pathDiv selfId part, ch)) ++
            (streamParts net (rstripSlash source) selfId rest).1,
          (streamParts net (rstripSlash source) selfId rest).2)) := by
  refine ⟨?_, ?_, ?_⟩
  · intro kvs part rest he hid hbad
    subst he
    simp [streamFolderFromUrl, hhp, streamParts, streamPart, hid, hbad]
  · intro kvs rest he hid
    subst he
    simp [streamFolderFromUrl, hhp, streamParts, streamPart, hid]
  · intro kvs part rest he hid hbad
    subst he
    simp [streamFolderFromUrl, hhp, streamParts, streamPart, hid, hbad]

/-- A remote dataset `_jsonld` with one good relative part. -/
def remoteGood : List (String × JVal) :=
  [("@id", .str "data/"), ("@type", .str "Dataset"),
   ("hasPart", .list [.dict [("@id", .str "x.txt")]])]

/-- A remote dataset `_jsonld` whose part id is an absolute URL. -/
def remoteBad : List (String × JVal) :=
  [("@id", .str "data/"),
   ("hasPart", .list [.dict [("@id", .str "http://evil.com/x")]])]

/-- A remote dataset `_jsonld` whose only part entry lacks `@id`. -/
def remoteNoId : List (String × JVal) :=
  [("@id", .str "data/"), ("hasPart", .list [.dict [("name", .str "n")]])]

/-- C8, witness: with a network oracle echoing the fetched URL, the good
part is fetched from `base/part` into `data/x.txt`; the URL part is fatal
with no chunk; the id-less part is skipped with the stream ending cleanly. -/
theorem stream_remote_contract_witness :
    streamFolderFromUrl (fun u => [u]) true false
        "http://example.com/data/" "data/" remoteGood "now" =
      (remoteGood,
       [("data/x.txt", "http://example.com/data/x.txt")], none)
  ∧ streamFolderFromUrl (fun u => [u]) true false
        "http://example.com/data/" "data/" remoteBad "now" =
      (remoteBad, [],
       some (.runtimeError
         ("part " ++ "http://evil.com/x" ++ " is not a relative path")))
  ∧ streamFolderFromUrl (fun u => [u]) true false
        "http://example.com/data/" "data/" remoteNoId "now" =
      (remoteNoId, [], none) :=
  ⟨(stream_remote_contract (fun u => [u]) false "http://example.com/data/"
      "data/" "now" remoteGood _ (by decide)).2.2 [("@id", .str "x.txt")]
      "x.txt" [] rfl (by decide) (by decide),
   (stream_remote_contract (fun u => [u]) false "http://example.com/data/"
      "data/" "now" remoteBad _ (by decide)).1
      [("@id", .str "http://evil.com/x")] "http://evil.com/x" [] rfl
      (by decide) (by decide),
   (stream_remote_contract (fun u => [u]) false "http://example.com/data/"
      "data/" "now" remoteNoId _ (by decide)).2.1 [("name", .str "n")] []
      rfl (by decide)⟩

/-! ## Claim C9 -/

theorem stripTypes_map_str :
    ∀ ss : List String, stripTypes (ss.map JVal.str) = .ok (ss.map pyStrip)
  | [] => by simp [stripTypes]
  | s :: rest => by
    simp [stripTypes, stripTypes_map_str rest, bind, Except.bind]

/-- C9: load-time type dispatch.  A pending flattened entity without
`@type` makes `pick_type` raise `ValueError`, and through the loader's
per-entity dispatch loop that failure aborts the whole load (no silent
fallback); an entity whose declared (string) types match no registered name
gets exactly the supplied fallback class. -/
theorem pick_type_contract {α : Type} (typeMap : List (String × α))
    (fallback : α) :
    (∀ jsonEntity : List (String × JVal), dget jsonEntity "@type" = none →
       pick_type jsonEntity typeMap fallback =
         .error (.valueError "entity has no @type"))
  ∧ (∀ pre post jsonEntity, dget jsonEntity "@type" = none →
       ∃ e, dispatchAll typeMap fallback (pre ++ jsonEntity :: post) =
         .error e)
  ∧ (∀ (jsonEntity : List (String × JVal)) (ss : List String),
       dget jsonEntity "@type" = some (.list (ss.map JVal.str)) →
       (∀ p ∈ typeMap, p.1 ∉ ss.map pyStrip) →
       pick_type jsonEntity typeMap fallback = .ok fallback)
  ∧ (∀ (jsonEntity : List (String × JVal)) (s : String),
       dget jsonEntity "@type" = some (.str s) →
       (∀ p ∈ typeMap, p.1 ≠ pyStrip s) →
       pick_type jsonEntity typeMap fallback = .ok fallback) := by
  have h1 : ∀ jsonEntity : List (String × JVal),
      dget jsonEntity "@type" = none →
      pick_type jsonEntity typeMap fallback =
        .error (.valueError "entity has no @type") := by
    intro jsonEntity h
    simp [pick_type, h]
  refine ⟨h1, ?_, ?_, ?_⟩
  · intro pre
    induction pre with
    | nil =>
      intro post jsonEntity h
      refine ⟨.valueError "entity has no @type", ?_⟩
      simp [dispatchAll, h1 jsonEntity h, bind, Except.bind]
    | cons p rest ih =>
      intro post jsonEntity h
      obtain ⟨e, he⟩ := ih post jsonEntity h
      cases hp : pick_type p typeMap fallback with
      | error e0 =>
        exact ⟨e0, by simp [dispatchAll, hp, bind, Except.bind]⟩
      | ok c0 =>
        exact ⟨e, by simp [dispatchAll, hp, he, bind, Except.bind]⟩
  · intro jsonEntity ss h hnm
    have hfind : typeMap.find? (fun p => decide (p.1 ∈ ss.map pyStrip))
        = none :=
      List.find?_eq_none.mpr (fun p hp => by simpa using hnm p hp)
    have hfind2 : typeMap.find?
        (fun p => decide (∃ a ∈ ss, pyStrip a = p.1)) = none := by
      simpa using hfind
    simp [pick_type, h, stripTypes_map_str ss, bind, Except.bind, hfind2]
  · intro jsonEntity s h hnm
    have hfind : typeMap.find? (fun p => decide (p.1 = pyStrip s)) = none :=
      List.find?_eq_none.mpr (fun p hp => by simpa using hnm p hp)
    simp [pick_type, h, stripTypes, bind, Except.bind, hfind]

/-- A registered type table fixture (names as in the data-entity table). -/
def tmFix : List (String × Nat) := [("File", 1), ("Dataset", 2)]

/-- C9, witness: an entity without `@type` is an error and poisons the whole
dispatch even after a good entity, while an unmatched `Person` type falls
back. -/
theorem pick_type_contract_witness :
    pick_type [("@id", JVal.str "x")] tmFix 0 =
      .error (.valueError "entity has no @type")
  ∧ (∃ e, dispatchAll tmFix 0
      [[("@type", JVal.str "File")], [("@id", JVal.str "x")]] = .error e)
  ∧ pick_type [("@type", JVal.str "Person")] tmFix 0 = .ok 0 :=
  ⟨(pick_type_contract tmFix 0).1 [("@id", JVal.str "x")] (by decide),
   (pick_type_contract tmFix 0).2.1 [[("@type", JVal.str "File")]] []
     [("@id", JVal.str "x")] (by decide),
   (pick_type_contract tmFix 0).2.2.2 [("@type", JVal.str "Person")]
     "Person" (by decide) (by decide)⟩

/-! ## Claim C10 -/

/-- C10: `Dataset.stream` yields the empty sequence when the dataset has no
source; for a local (non-URL) source a missing path raises
`FileNotFoundError` before anything is yielded, and when the owning crate
itself has a (truthy) source nothing is yielded either — the directory is
walked only for crates built from scratch. -/
theorem dataset_stream_contract (fs : FS) (net : String → List String)
    (cst fetchRemote validateUrl : Bool) (selfId now : String)
    (jsonld : List (String × JVal)) :
    datasetStream fs net cst none fetchRemote validateUrl selfId jsonld now
      = (jsonld, [], none)
  ∧ (∀ s, is_url s = false → fs.pathExists s = false →
      datasetStream fs net cst (some s) fetchRemote validateUrl selfId
        jsonld now = (jsonld, [], some (.fileNotFoundError s)))
  ∧ (∀ s, is_url s = false → fs.pathExists s = true → cst = true →
      datasetStream fs net cst (some s) fetchRemote validateUrl selfId
        jsonld now = (jsonld, [], none))
  ∧ (∀ s, is_url s = false → fs.pathExists s = true → cst = false →
      datasetStream fs net cst (some s) fetchRemote validateUrl selfId
        jsonld now = (jsonld, fs.walkChunks s, none)) := by
  refine ⟨?_, ?_, ?_, ?_⟩
  · simp [datasetStream]
  · intro s hu hp
    simp [datasetStream, streamFolderFromPath, hu, hp]
  · intro s hu hp hc
    subst hc
    simp [datasetStream, streamFolderFromPath, hu, hp]
  · intro s hu hp hc
    subst hc
    simp [datasetStream, streamFolderFromPath, hu, hp]

/-- A filesystem oracle fixture: every path exists, walking yields one
chunk. -/
def fsFix : FS :=
  ⟨fun _ => true, fun s => [(s ++ "/a.txt", "bytes")]⟩

/-- A filesystem oracle fixture where no path exists. -/
def fsNone : FS :=
  ⟨fun _ => false, fun _ => []⟩

/-- C10, witness: no source yields nothing; a missing local source raises;
an existing local source yields nothing when the crate has a source, and
the walked chunks when built from scratch. -/
theorem dataset_stream_contract_witness :
    datasetStream fsFix (fun _ => []) true none false false "d/" [] "now"
      = ([], [], none)
  ∧ datasetStream fsNone (fun _ => []) true (some "data") false false "d/"
      [] "now" = ([], [], some (.fileNotFoundError "data"))
  ∧ datasetStream fsFix (fun _ => []) true (some "data") false false "d/"
      [] "now" = ([], [], none)
  ∧ datasetStream fsFix (fun _ => []) false (some "data") false false "d/"
      [] "now" = ([], [("data/a.txt", "bytes")], none) :=
  ⟨(dataset_stream_contract fsFix (fun _ => []) true false false "d/" "now"
      []).1,
   (dataset_stream_contract fsNone (fun _ => []) true false false "d/"
      "now" []).2.1 "data" (by decide) rfl,
   (dataset_stream_contract fsFix (fun _ => []) true false false "d/" "now"
      []).2.2.1 "data" (by decide) rfl rfl,
   (dataset_stream_contract fsFix (fun _ => []) false false false "d/"
      "now" []).2.2.2 "data" (by decide) rfl rfl⟩

end RC
